import Mathlib

/-!
Verification development for the effort-hours aggregation tool.

The program reads per-employee spreadsheet workbooks, heuristically extracts
(study id, hours) rows from each sheet, aggregates them across employees,
and writes report artifacts.  Each definition below is a shallow embedding
of one function of the source file, translated clause by clause.

Modelling conventions:
- A spreadsheet cell (as produced by reading a sheet with no header row) is
  a numeric value, a text value, or a missing cell (NaN).  Numeric cell
  values are modelled as integers; their decimal rendering contains only
  digits and a possible minus sign, so they can never satisfy the textual
  patterns the extractor searches for, and no claim depends on fractional
  values.
- Stringification of a cell (pandas astype to str) renders a missing cell
  as the text nan, mirroring how NaN is stringified.
- A pandas DataFrame column has a numeric dtype exactly when every cell of
  the column (over the whole sheet, header rows included, since slicing a
  frame preserves dtypes) is numeric or missing; a single text cell makes
  the dtype object.  This is what select_dtypes observes.
- Ragged rows are padded with missing cells up to the sheet width, matching
  how the reader pads short rows with NaN.
-/

/-- A single spreadsheet cell: a number, a text value, or missing (NaN). -/
inductive Cell where
  | num (n : Int)
  | str (s : String)
  | empty
deriving DecidableEq, Repr

/-- Stringification of a cell, as pandas astype given str does: text is kept,
numbers render in decimal, a missing cell renders as the text nan. -/
def cellStr : Cell → String
  | Cell.num n => toString n
  | Cell.str s => s
  | Cell.empty => "nan"

/-- Lowercasing of a string, one character at a time (str.lower). -/
def lowerStr (s : String) : String := ⟨s.data.map Char.toLower⟩

/-- Full match of the regular expression STUDY then one or more digits,
case-sensitively and with no trimming: exactly what
Series.str.fullmatch with pattern STUDY and digits tests. -/
def isStudyToken (s : String) : Bool :=
  "STUDY".toList.isPrefixOf s.data && decide (5 < s.data.length)
    && (s.data.drop 5).all Char.isDigit

/-- Full match of the lowercase pattern study then one or more digits against
the lowercased string: what the header scan tests with contains anchored by
caret and dollar after lowercasing the row. -/
def matchesStudyLower (s : String) : Bool :=
  "study".toList.isPrefixOf (lowerStr s).data
    && decide (5 < (lowerStr s).data.length)
    && ((lowerStr s).data.drop 5).all Char.isDigit

/-- Substring test on character lists: does pat occur contiguously in l? -/
def infixOfList (pat : List Char) : List Char → Bool
  | [] => pat.isEmpty
  | c :: rest => pat.isPrefixOf (c :: rest) || infixOfList pat rest

/-- Does the lowercased stringified cell contain the literal text study id
as a substring (Series.str.contains on the lowercased row)? -/
def containsStudyId (c : Cell) : Bool :=
  infixOfList "study id".toList (lowerStr (cellStr c)).data

/-- Is the cell numeric or missing?  A column whose every cell satisfies this
is read with a numeric dtype; a single text cell makes it object dtype. -/
def cellIsNumOrNan : Cell → Bool
  | Cell.num _ => true
  | Cell.str _ => false
  | Cell.empty => true

/-- Numeric value of a cell for summation: missing cells contribute zero
(sum skips NaN); text cells never occur inside a numeric-dtype column. -/
def cellAsNum : Cell → Int
  | Cell.num n => n
  | Cell.str _ => 0
  | Cell.empty => 0

/-- Number of columns of the sheet: the width of the widest row (the reader
pads shorter rows with NaN up to this width). -/
def ncols (g : List (List Cell)) : Nat :=
  g.foldr (fun r m => max r.length m) 0

/-- The header scan of the extractor, rows top to bottom.  For each row in
turn: if some cell contains the text study id the data region starts at the
next row; otherwise if some lowercased cell fully matches the study pattern
the data region starts at that row; the first hit wins.  Returns the data
start relative to the scanned rows, or none when no row hits. -/
def headerScan : List (List Cell) → Option Nat
  | [] => none
  | r :: rs =>
    if r.any containsStudyId then some 1
    else if r.any (fun c => matchesStudyLower (cellStr c)) then some 0
    else (headerScan rs).map (· + 1)

/-- Start of the data region: the header scan result, defaulting to row 0
when no row hits. -/
def data_start (g : List (List Cell)) : Nat :=
  (headerScan g).getD 0

/-- Does column j of the data region hold at least one cell whose
stringification fully matches STUDY then digits (case-sensitive)? -/
def colHasStudyExact (d : List (List Cell)) (j : Nat) : Bool :=
  d.any fun r => isStudyToken (cellStr (r.getD j Cell.empty))

/-- The study-id column: the first column, scanning left to right over the
sheet's columns, with at least one exact study-pattern cell in the data
region; none when no column qualifies. -/
def studyCol (d : List (List Cell)) (w : Nat) : Option Nat :=
  (List.range w).find? (colHasStudyExact d)

/-- Column j carries a numeric dtype: every cell of the column over the whole
sheet (header rows included, since slicing preserves dtypes) is numeric or
missing. -/
def numericCol (g : List (List Cell)) (j : Nat) : Bool :=
  g.all fun r => cellIsNumOrNan (r.getD j Cell.empty)

/-- The list of numeric-dtype column indices of the sheet. -/
def numeric_cols (g : List (List Cell)) : List Nat :=
  (List.range (ncols g)).filter (numericCol g)

/-- Row-wise sum over the numeric columns, missing cells contributing 0. -/
def rowHours (numCols : List Nat) (r : List Cell) : Int :=
  (numCols.map fun j => cellAsNum (r.getD j Cell.empty)).sum

/-- One normalized observation emitted by the sheet extractor. -/
structure EffortRow where
  studyId : String
  hours : Int
  sheet : String
deriving DecidableEq, Repr

/-- The sheet extractor.  Empty grid: nothing.  Otherwise: locate the data
start, select the study-id column over the data region (none: nothing),
keep exactly the data rows whose cell in that column fully matches the
study pattern, and emit for each its study id, the row-wise sum over the
numeric-dtype columns, and the sheet name. -/
def extract_study_hours_from_sheet (g : List (List Cell)) (sheetName : String) :
    List EffortRow :=
  if g.isEmpty || ncols g == 0 then []
  else
    let dfData := g.drop (data_start g)
    match studyCol dfData (ncols g) with
    | none => []
    | some c =>
      let valid := dfData.filter fun r => isStudyToken (cellStr (r.getD c Cell.empty))
      valid.map fun r =>
        { studyId := cellStr (r.getD c Cell.empty)
          hours := rowHours (numeric_cols g) r
          sheet := sheetName }

/-- The example grid of the specification: a header row, two study rows and
a junk row. -/
def exampleGrid : List (List Cell) :=
  [[Cell.str ("Study ID"), Cell.str ("Jan"), Cell.str ("Feb")],
   [Cell.str ("STUDY1"), Cell.num 3, Cell.num 4],
   [Cell.str ("STUDY2"), Cell.num 0, Cell.num 0],
   [Cell.str ("junk"), Cell.str ("x"), Cell.str ("y")]]

/-! String ordering.  The host language compares strings lexicographically
by code point; the boolean order below is that comparison, written directly
over character lists so that it evaluates by kernel reduction. -/

/-- Code-point comparison of two characters. -/
def charLt (a b : Char) : Bool :=
  decide (a.toNat < b.toNat)

/-- Lexicographic code-point order on character lists: the order the host
language uses to compare and sort strings. -/
def lexLe : List Char → List Char → Bool
  | [], _ => true
  | _ :: _, [] => false
  | a :: as, b :: bs => if a = b then lexLe as bs else charLt a b

/-- Lexicographic code-point order on strings. -/
def strLe (s t : String) : Bool :=
  lexLe s.data t.data

/-- The string order as a relation, for use with the sorting library. -/
def sle (s t : String) : Prop :=
  strLe s t = true

instance : DecidableRel sle := fun s t =>
  inferInstanceAs (Decidable (strLe s t = true))

theorem charLt_asymm {a b : Char} (h₁ : charLt a b = true) (h₂ : charLt b a = true) :
    False := by
  simp only [charLt, decide_eq_true_eq] at h₁ h₂
  omega

theorem charLt_or_of_ne {a b : Char} (h : a ≠ b) :
    charLt a b = true ∨ charLt b a = true := by
  have hv : a.toNat ≠ b.toNat := fun he => h (Char.ext (UInt32.toNat.inj he))
  simp only [charLt, decide_eq_true_eq]
  omega

theorem lexLe_total : ∀ as bs, lexLe as bs = true ∨ lexLe bs as = true
  | [], _ => Or.inl rfl
  | _ :: _, [] => Or.inr rfl
  | a :: as, b :: bs => by
    by_cases hab : a = b
    · subst hab
      simpa only [lexLe, if_pos rfl] using lexLe_total as bs
    · have hba : b ≠ a := fun h => hab h.symm
      simp only [lexLe, if_neg hab, if_neg hba]
      exact charLt_or_of_ne hab

theorem lexLe_trans : ∀ as bs cs, lexLe as bs = true → lexLe bs cs = true →
    lexLe as cs = true
  | [], _, _, _, _ => rfl
  | _ :: _, [], _, h₁, _ => by simp [lexLe] at h₁
  | _ :: _, _ :: _, [], _, h₂ => by simp [lexLe] at h₂
  | a :: as, b :: bs, c :: cs, h₁, h₂ => by
    by_cases hab : a = b <;> by_cases hbc : b = c
    · subst hab; subst hbc
      simp only [lexLe, if_pos rfl] at h₁ h₂ ⊢
      exact lexLe_trans as bs cs h₁ h₂
    · subst hab
      simpa only [lexLe, if_neg hbc] using by
        simpa only [lexLe, if_neg hbc] using h₂
    · subst hbc
      simpa only [lexLe, if_neg hab] using by
        simpa only [lexLe, if_neg hab] using h₁
    · have hac : a ≠ c := fun h => by
        subst h
        simp only [lexLe, if_neg hab] at h₁
        have hba : ¬ b = a := fun hh => hab hh.symm
        simp only [lexLe, if_neg hba] at h₂
        exact charLt_asymm h₁ h₂
      simp only [lexLe, if_neg hab] at h₁
      simp only [lexLe, if_neg hbc] at h₂
      simp only [lexLe, if_neg hac, charLt, decide_eq_true_eq]
      simp only [charLt, decide_eq_true_eq] at h₁ h₂
      omega

theorem lexLe_antisymm : ∀ as bs, lexLe as bs = true → lexLe bs as = true →
    as = bs
  | [], [], _, _ => rfl
  | [], _ :: _, _, h₂ => by simp [lexLe] at h₂
  | _ :: _, [], h₁, _ => by simp [lexLe] at h₁
  | a :: as, b :: bs, h₁, h₂ => by
    by_cases hab : a = b
    · subst hab
      simp only [lexLe, if_pos rfl] at h₁ h₂
      rw [lexLe_antisymm as bs h₁ h₂]
    · have hba : b ≠ a := fun h => hab h.symm
      simp only [lexLe, if_neg hab] at h₁
      simp only [lexLe, if_neg hba] at h₂
      exact (charLt_asymm h₁ h₂).elim

theorem strLe_refl (s : String) : strLe s s = true := by
  have : ∀ l, lexLe l l = true := by
    intro l
    induction l with
    | nil => rfl
    | cons a l ih => simpa only [lexLe, if_pos rfl] using ih
  exact this s.data

instance : IsTotal String sle :=
  ⟨fun s t => lexLe_total s.data t.data⟩

instance : IsTrans String sle :=
  ⟨fun s t u => lexLe_trans s.data t.data u.data⟩

instance : IsAntisymm String sle :=
  ⟨fun s t h₁ h₂ => by
    cases s with
    | mk ls =>
      cases t with
      | mk lt => exact congrArg String.mk (lexLe_antisymm ls lt h₁ h₂)⟩

instance : IsRefl String sle :=
  ⟨strLe_refl⟩

/-- The reversed string order, for descending sorts. -/
def sge (s t : String) : Prop :=
  sle t s

instance : DecidableRel sge := fun s t =>
  inferInstanceAs (Decidable (strLe t s = true))

instance : IsTotal String sge :=
  ⟨fun s t => lexLe_total t.data s.data⟩

instance : IsTrans String sge :=
  ⟨fun _ _ _ h₁ h₂ => lexLe_trans _ _ _ h₂ h₁⟩

/-- Ascending sort of a multiset of strings into a list.  Stated over the
quotient so that it evaluates by kernel reduction on concrete sets. -/
def msortAsc (s : Multiset String) : List String :=
  Quot.liftOn s (fun l => List.insertionSort sle l) fun _ _ h =>
    List.eq_of_perm_of_sorted
      ((List.perm_insertionSort _ _).trans (h.trans (List.perm_insertionSort _ _).symm))
      (List.sorted_insertionSort _ _) (List.sorted_insertionSort _ _)

/-- Ascending sort of a finite set of strings into a list. -/
def finsetSortAsc (s : Finset String) : List String :=
  msortAsc s.val

/-! Registry: the persisted set of known employee identifiers.  The state
file holds a JSON object with a single key employees mapping to a list of
identifier strings; saving writes the set sorted ascending, loading turns
the list back into a set. -/

/-- The JSON state file content: the list stored under the key employees. -/
structure RegistryFile where
  employees : List String
deriving DecidableEq

/-- Saving the registry: the identifier set is written as a list sorted
ascending (by code points, as the host language sorts strings). -/
def save_known_employees (emps : Finset String) : RegistryFile :=
  ⟨finsetSortAsc emps⟩

/-- Loading the registry: the stored list, read back as a set. -/
def load_known_employees (f : RegistryFile) : Finset String :=
  f.employees.toFinset

/-! Aggregator.  The tracked-and-present employee list is the sorted
intersection of the persisted registry with the identifiers derivable from
files currently present.  Per-employee loading is abstracted as a function
from an identifier to its extracted rows (the loader applies the sheet
extractor per sheet and concatenates; no claim depends on its internals). -/

/-- One aggregated observation: an effort row stamped with its employee. -/
structure AggRow where
  studyId : String
  hours : Int
  sheet : String
  employee : String
deriving DecidableEq, Repr

/-- The column set of a non-empty aggregated table, in frame order: the
extractor's three columns followed by the appended Employee column. -/
def effort_columns : List String :=
  ["Study ID", "Hours", "Sheet", "Employee"]

/-- A data frame for the aggregation result: its column list and its rows.
The wholly empty frame (the default frame constructor) has no columns. -/
structure AggTable where
  columns : List String
  rows : List AggRow
deriving DecidableEq

/-- Sorted list of the identifiers both tracked in the registry and
derivable from files present: intersection of the two sets, sorted
ascending. -/
def get_employee_files (known current : Finset String) : List String :=
  finsetSortAsc (known ∩ current)

/-- Stamping a loaded data frame with its employee identifier (the appended
Employee column). -/
def tagEmployee (e : String) (df : List EffortRow) : List AggRow :=
  df.map fun r => ⟨r.studyId, r.hours, r.sheet, e⟩

/-- The aggregation loop body for one employee: none when the load is empty
(the employee contributes nothing), otherwise the load stamped with the
employee. -/
def nonEmptyTagged (loadEmp : String → List EffortRow) (e : String) :
    Option (List AggRow) :=
  let df := loadEmp e
  if df.isEmpty then none else some (tagEmployee e df)

/-- The aggregator.  With no tracked-and-present employee it returns the
default empty frame (no columns).  Otherwise it loads each employee in
ascending identifier order, keeps the non-empty loads stamped with their
employee, and concatenates them; if every load was empty it again returns
the default empty frame. -/
def load_all_data (known current : Finset String)
    (loadEmp : String → List EffortRow) : AggTable :=
  let employees := get_employee_files known current
  if employees.isEmpty then ⟨[], []⟩
  else
    let dfs := employees.filterMap (nonEmptyTagged loadEmp)
    if dfs.isEmpty then ⟨[], []⟩ else ⟨effort_columns, dfs.flatten⟩

/-! Report generation.  The workbook gets one sheet per selected employee:
a placeholder when the load is empty or the total is zero, otherwise the
per-study summary with a percentage column; with several employees and at
least one non-empty load it also gets an Overall Summary pivot. -/

/-- Sorted list of the distinct values of a list of strings, ascending:
the key order a pandas groupby or pivot produces. -/
def sorted_distinct (l : List String) : List String :=
  List.insertionSort sle l.dedup

/-- Per-study total hours of one employee's rows, keys ascending (the
groupby over Study ID summing Hours). -/
def studySums (df : List EffortRow) : List (String × Int) :=
  (sorted_distinct (df.map EffortRow.studyId)).map fun sid =>
    (sid, ((df.filter fun r => r.studyId == sid).map EffortRow.hours).sum)

/-- One line of a per-employee summary sheet: account, hours, the grand
total, and the percentage of the grand total.  The source computes the
percentage as hours divided by total times 100, rounded to two decimals and
rendered as text; here the two operands of that division are recorded
(numerator hours times 100, denominator the grand total), the rounding and
rendering of the quotient being presentation only. -/
structure SummaryRow where
  account : String
  hours : Int
  totalHours : Int
  pctNum : Int
  pctDen : Int
deriving DecidableEq

/-- A per-employee sheet of the workbook: the placeholder for an employee
with no loaded rows, the placeholder for a zero grand total, or the
summary table with the percentage column. -/
inductive EmpSheet where
  | noData
  | noHours
  | summary (tbl : List SummaryRow)
deriving DecidableEq

/-- Building one employee's sheet: empty load gives the no-data placeholder;
a zero grand total gives the no-hours placeholder and skips the summary;
otherwise every summary line carries the percentage hours / total * 100. -/
def employee_sheet (df : List EffortRow) : EmpSheet :=
  if df.isEmpty then EmpSheet.noData
  else
    let summary := studySums df
    let total := (summary.map Prod.snd).sum
    if total = 0 then EmpSheet.noHours
    else EmpSheet.summary (summary.map fun p =>
      ⟨p.1, p.2, total, p.2 * 100, total⟩)

/-- The detail rows collected while generating a report: each selected
employee's loaded rows stamped with the employee, in selection order
(an employee with an empty load contributes nothing). -/
def report_details (selected : List String)
    (loadEmp : String → List EffortRow) : List AggRow :=
  selected.flatMap fun e => tagEmployee e (loadEmp e)

/-- Is the Overall Summary sheet emitted?  Exactly when more than one
employee is selected and the collected details are non-empty. -/
def report_has_overall (selected : List String)
    (loadEmp : String → List EffortRow) : Bool :=
  decide (1 < selected.length) && !(report_details selected loadEmp).isEmpty

/-- Total hours of one study for one employee in the detail rows: the pivot
cell value, zero when the combination is absent (fill value 0). -/
def pivotCell (details : List AggRow) (sid emp : String) : Int :=
  ((details.filter fun r => r.studyId == sid && r.employee == emp).map
    AggRow.hours).sum

/-- The Overall Summary sheet: the pivot's employee columns in ascending
order; one body line per study in ascending order holding the per-employee
cells and the appended Grand Total cell (row-wise sum); and the appended
Total per Employee line holding each column's sum, the Grand Total column
included. -/
structure OverallSummary where
  employees : List String
  body : List (String × List Int × Int)
  totalRow : List Int × Int
deriving DecidableEq

/-- Building the Overall Summary from the detail rows, as the pivot over
Study ID by Employee summing Hours with fill value 0, then the Grand Total
column, then the Total per Employee row summing every column. -/
def overall_summary (details : List AggRow) : OverallSummary :=
  let sids := sorted_distinct (details.map AggRow.studyId)
  let emps := sorted_distinct (details.map AggRow.employee)
  let body := sids.map fun sid =>
    let cells := emps.map fun e => pivotCell details sid e
    (sid, cells, cells.sum)
  let colTotals := emps.map fun e => (sids.map fun sid => pivotCell details sid e).sum
  ⟨emps, body, (colTotals, (body.map fun b => b.2.2).sum)⟩

/-! Report artifact names.  The timestamp is rendered as YYYYMMDD then an
underscore then HHMMSS; the name stem is the sole selected employee's
identifier when exactly one employee is selected and Effort otherwise. -/

/-- A wall-clock timestamp. -/
structure Timestamp where
  year : Nat
  month : Nat
  day : Nat
  hour : Nat
  minute : Nat
  second : Nat

/-- Fixed-width zero-padded decimal rendering (the strftime field renderer):
the low w decimal digits of n, which for n below 10 to the w is just n
zero-padded to width w. -/
def padNum : Nat → Nat → List Char
  | 0, _ => []
  | w + 1, n => padNum w (n / 10) ++ [Nat.digitChar (n % 10)]

/-- The strftime rendering with format YYYYMMDD underscore HHMMSS. -/
def format_timestamp (t : Timestamp) : String :=
  ⟨padNum 4 t.year ++ padNum 2 t.month ++ padNum 2 t.day
    ++ ['_'] ++ padNum 2 t.hour ++ padNum 2 t.minute ++ padNum 2 t.second⟩

/-- Does the string have the shape of eight digits, an underscore, and six
digits? -/
def isTimestampShape (s : String) : Bool :=
  decide (s.data.length = 15) && (s.data.take 8).all Char.isDigit
    && (s.data.getD 8 (' ') == '_') && (s.data.drop 9).all Char.isDigit

/-- The artifact name stem: the selected employee's identifier when exactly
one employee is selected, the generic stem Effort otherwise. -/
def report_name_stem : List String → String
  | [e] => e
  | _ => "Effort"

/-- The workbook artifact name. -/
def excel_path (selected : List String) (t : Timestamp) : String :=
  report_name_stem selected ++ "Files_" ++ format_timestamp t ++ ".xlsx"

/-- The flat table artifact name. -/
def csv_path (selected : List String) (t : Timestamp) : String :=
  report_name_stem selected ++ "Data_" ++ format_timestamp t ++ ".csv"

/-! Visualization input selection.  The menu lists the files whose name
starts with EffortData underscore and ends with .csv, sorts them in
descending order, and loads the first. -/

/-- The filter the visualization path applies to directory entries. -/
def is_effort_csv (f : String) : Bool :=
  "EffortData_".toList.isPrefixOf f.data
    && (".csv".toList.isSuffixOf f.data)

/-- The flat table file the visualization path loads: the filtered names
sorted descending, then the first; none when no name passes the filter. -/
def pick_report_csv (files : List String) : Option String :=
  (List.insertionSort sge (files.filter is_effort_csv)).head?

/-! Definitions modelled from the specification's words, kept apart from the
source embedding and used only to compare a claim's reading with the code. -/

/-- Modelled from the spec: trimming of surrounding whitespace, as the claim
asks for before matching a cell against the study pattern. -/
def trimStr (s : String) : String :=
  ⟨((s.data.dropWhile Char.isWhitespace).reverse.dropWhile
      Char.isWhitespace).reverse⟩

/-- Modelled from the spec claim for comparison: a cell qualifies its column
when its stringified and trimmed value fully matches the study pattern
case-insensitively. -/
def isStudyTokenClaim (s : String) : Bool :=
  matchesStudyLower (trimStr s)

/-- Modelled from the spec claim for comparison: the study-id column the
claim describes, the first column with at least one trimmed, lowercased
study-pattern cell. -/
def studyColClaim (d : List (List Cell)) (w : Nat) : Option Nat :=
  (List.range w).find? fun j =>
    d.any fun r => isStudyTokenClaim (cellStr (r.getD j Cell.empty))

/-- Modelled from the spec: a flat table artifact is any file named by a
stem, the text Data underscore, a timestamp and the extension .csv; this
predicate recognizes such names by their Data underscore fragment and
extension. -/
def is_flat_artifact (f : String) : Bool :=
  infixOfList "Data_".toList f.data && (".csv".toList.isSuffixOf f.data)

/-- Modelled from the spec: the timestamp of an artifact name, the fifteen
characters before the extension. -/
def artifact_timestamp (f : String) : String :=
  ⟨(f.data.take (f.data.length - 4)).drop (f.data.length - 19)⟩

/-- Modelled from the spec claim for comparison: the artifact with the
lexicographically greatest timestamp among all flat table artifacts
present. -/
def claim_pick (files : List String) : Option String :=
  (files.filter is_flat_artifact).foldl
    (fun acc f =>
      match acc with
      | none => some f
      | some g => if strLe (artifact_timestamp g) (artifact_timestamp f) then some f
                  else some g)
    none

/-- The two-employee load of the specification's pivot example: alice with
10 hours on STUDY1, bob with 20 on STUDY1 and 5 on STUDY2. -/
def demo_load : String → List EffortRow := fun e =>
  if e == "alice" then [⟨"STUDY1", 10, "wk1"⟩]
  else if e == "bob" then [⟨"STUDY1", 20, "wk1"⟩, ⟨"STUDY2", 5, "wk1"⟩]
  else []

/-- A one-row grid with a negative numeric cell next to an exact study id. -/
def negGrid : List (List Cell) :=
  [[Cell.str ("STUDY1"), Cell.num (-5)]]

/-- A one-row grid whose only study-like cell is lowercase and padded with
whitespace. -/
def paddedGrid : List (List Cell) :=
  [[Cell.str (" study7 "), Cell.num 5]]

/-- A grid where a row fully matching the study pattern precedes the row
holding the study id header token. -/
def preemptGrid : List (List Cell) :=
  [[Cell.str ("STUDY5")], [Cell.str ("Study ID")], [Cell.str ("STUDY1")]]

/-- A grid whose first row is the study id header and whose second row is a
data row. -/
def hdrGrid : List (List Cell) :=
  [[Cell.str ("Study ID"), Cell.str ("Jan")], [Cell.str ("STUDY1"), Cell.num 2]]

/-- A directory listing holding one generic flat table artifact and one
employee-prefixed artifact with a strictly later timestamp. -/
def csv_files_demo : List String :=
  ["EffortData_20250101_000000.csv", "aliceData_20250102_000000.csv"]

example : data_start exampleGrid = 1 := by decide
example : extract_study_hours_from_sheet exampleGrid ("S")
    = [⟨"STUDY1", 0, "S"⟩, ⟨"STUDY2", 0, "S"⟩] := by decide
example : extract_study_hours_from_sheet [[Cell.str ("STUDY1"), Cell.num (-5)]] ("S")
    = [⟨"STUDY1", -5, "S"⟩] := by decide
example : extract_study_hours_from_sheet [[Cell.str (" study7 "), Cell.num 5]] ("S")
    = [] := by decide
example : extract_study_hours_from_sheet
    [[Cell.str ("STUDY5")], [Cell.str ("Study ID")], [Cell.str ("STUDY1")]] ("S")
    = [⟨"STUDY5", 0, "S"⟩, ⟨"STUDY1", 0, "S"⟩] := by decide

/-! Helper lemmas. -/

theorem msortAsc_sorted (m : Multiset String) : List.Sorted sle (msortAsc m) :=
  Quotient.inductionOn m fun l => List.sorted_insertionSort sle l

theorem mem_msortAsc {a : String} (m : Multiset String) :
    a ∈ msortAsc m ↔ a ∈ m :=
  Quotient.inductionOn m fun l => by
    show a ∈ List.insertionSort sle l ↔ a ∈ (l : Multiset String)
    rw [Multiset.mem_coe]
    exact (List.perm_insertionSort sle l).mem_iff

theorem finsetSortAsc_sorted (s : Finset String) :
    List.Sorted sle (finsetSortAsc s) :=
  msortAsc_sorted s.val

theorem mem_finsetSortAsc {a : String} (s : Finset String) :
    a ∈ finsetSortAsc s ↔ a ∈ s :=
  mem_msortAsc s.val

theorem finsetSortAsc_toFinset (s : Finset String) :
    (finsetSortAsc s).toFinset = s := by
  ext a
  rw [List.mem_toFinset, mem_finsetSortAsc]

theorem range_find?_spec {p : Nat → Bool} {w j : Nat}
    (h : (List.range w).find? p = some j) :
    p j = true ∧ j < w ∧ ∀ i, i < j → p i = false := by
  rw [List.find?_eq_some] at h
  obtain ⟨hp, as, bs, heq, hprior⟩ := h
  have hj : j ∈ List.range w := by
    rw [heq]
    exact List.mem_append_right as (List.mem_cons_self _ _)
  have hlen : as.length < w := by
    have hl := congrArg List.length heq
    simp only [List.length_range, List.length_append, List.length_cons] at hl
    omega
  have htake : as = List.range as.length := by
    have ht : (List.range w).take as.length = as := by
      rw [heq, List.take_left]
    have h2 := ht.symm.trans (List.take_range as.length w)
    rwa [Nat.min_eq_left (Nat.le_of_lt hlen)] at h2
  refine ⟨hp, List.mem_range.mp hj, ?_⟩
  intro i hij
  have hjval : j = as.length := by
    have h8 : (List.range w)[as.length]? = some j := by
      rw [heq, List.getElem?_append_right (Nat.le_refl _)]
      simp
    rw [List.getElem?_range hlen] at h8
    exact (Option.some_inj.mp h8).symm
  have hmem : i ∈ as := by
    rw [htake, List.mem_range]
    omega
  simpa using hprior i hmem

theorem sum_map_filter_eq (l : List Nat) (p : Nat → Bool) (f : Nat → Int) :
    ((l.filter p).map f).sum = (l.map fun j => if p j then f j else 0).sum := by
  induction l with
  | nil => rfl
  | cons a l ih =>
    by_cases h : p a = true
    · simp [List.filter_cons, h, ih]
    · simp only [Bool.not_eq_true] at h
      simp [List.filter_cons, h, ih]

theorem mem_extract {g : List (List Cell)} {s : String} {e : EffortRow}
    (h : e ∈ extract_study_hours_from_sheet g s) :
    ∃ c, studyCol (g.drop (data_start g)) (ncols g) = some c ∧
      ∃ r ∈ g.drop (data_start g),
        isStudyToken (cellStr (r.getD c Cell.empty)) = true ∧
        e = ⟨cellStr (r.getD c Cell.empty), rowHours (numeric_cols g) r, s⟩ := by
  simp only [extract_study_hours_from_sheet] at h
  split at h
  · exact absurd h (List.not_mem_nil e)
  · split at h
    · exact absurd h (List.not_mem_nil e)
    · rename_i c hc
      obtain ⟨r, hr, he⟩ := List.mem_map.mp h
      rw [List.mem_filter] at hr
      exact ⟨c, hc, r, hr.1, hr.2, he.symm⟩

theorem toLower_of_isDigit {c : Char} (h : c.isDigit = true) : c.toLower = c := by
  simp only [Char.isDigit, Bool.and_eq_true, decide_eq_true_eq] at h
  obtain ⟨h1, h2⟩ := h
  have h2n : c.toNat ≤ 57 := by
    rw [UInt32.le_def, BitVec.le_def] at h2
    exact h2
  simp only [Char.toLower]
  rw [if_neg]
  omega

theorem map_toLower_digits (l : List Char) (h : l.all Char.isDigit = true) :
    l.map Char.toLower = l := by
  induction l with
  | nil => rfl
  | cons c l ih =>
    simp only [List.all_cons, Bool.and_eq_true] at h
    simp [toLower_of_isDigit h.1, ih h.2]

theorem studyToken_matchesLower {s : String} (h : isStudyToken s = true) :
    matchesStudyLower s = true := by
  simp only [isStudyToken, Bool.and_eq_true, decide_eq_true_eq] at h
  obtain ⟨⟨hpre, hlen⟩, hdig⟩ := h
  obtain ⟨rest, hrest⟩ := List.isPrefixOf_iff_prefix.mp hpre
  have hdrop : s.data.drop 5 = rest := by
    rw [← hrest]
    exact List.drop_left' rfl
  have hmap : s.data.map Char.toLower = "study".toList ++ rest := by
    rw [← hrest, List.map_append, map_toLower_digits rest (hdrop ▸ hdig)]
    rfl
  have hlow : (lowerStr s).data = "study".toList ++ rest := hmap
  simp only [matchesStudyLower, Bool.and_eq_true, decide_eq_true_eq, hlow]
  have h5 : ("STUDY".toList).length = 5 := rfl
  have h5l : ("study".toList).length = 5 := rfl
  refine ⟨⟨List.isPrefixOf_iff_prefix.mpr ⟨rest, rfl⟩, ?_⟩, ?_⟩
  · have hler := congrArg List.length hrest
    rw [List.length_append, h5] at hler
    rw [List.length_append, h5l]
    omega
  · rw [show (5 : Nat) = ("study".toList).length from rfl, List.drop_left]
    exact hdrop ▸ hdig

theorem headerScan_eq :
    ∀ (g : List (List Cell)) (i : Nat), i < g.length →
      (g.getD i []).any containsStudyId = true →
      (∀ k, k < i → (g.getD k []).any containsStudyId = false ∧
        (g.getD k []).any (fun c => matchesStudyLower (cellStr c)) = false) →
      headerScan g = some (i + 1)
  | [], i, hi, _, _ => by simp at hi
  | r :: rs, 0, _, hhit, _ => by
    simp only [List.getD_cons_zero] at hhit
    simp [headerScan, hhit]
  | r :: rs, i + 1, hi, hhit, hprior => by
    have h0 := hprior 0 (Nat.succ_pos i)
    simp only [List.getD_cons_zero] at h0
    have hrec := headerScan_eq rs i (by simpa using Nat.lt_of_succ_lt_succ hi)
      (by simpa using hhit)
      (fun k hk => by simpa using hprior (k + 1) (Nat.succ_lt_succ hk))
    simp [headerScan, h0.1, h0.2, hrec]

theorem flatten_filterMap_tag (l : List String) (f : String → List EffortRow) :
    (l.filterMap (nonEmptyTagged f)).flatten
      = l.flatMap fun e => tagEmployee e (f e) := by
  induction l with
  | nil => rfl
  | cons a l ih =>
    by_cases h : (f a).isEmpty = true
    · have ha : f a = [] := List.isEmpty_iff.mp h
      have hnone : nonEmptyTagged f a = none := by
        unfold nonEmptyTagged
        rw [if_pos h]
      rw [List.filterMap_cons_none hnone, List.flatMap_cons, ih, ha]
      simp [tagEmployee]
    · have hsome : nonEmptyTagged f a = some (tagEmployee a (f a)) := by
        unfold nonEmptyTagged
        rw [if_neg h]
      rw [List.filterMap_cons_some hsome, List.flatten_cons, List.flatMap_cons, ih]

theorem padNum_length : ∀ (w n : Nat), (padNum w n).length = w
  | 0, _ => rfl
  | w + 1, n => by simp [padNum, padNum_length w]

theorem padNum_all_digit : ∀ (w n : Nat), (padNum w n).all Char.isDigit = true
  | 0, _ => rfl
  | w + 1, n => by
    have hk : ∀ k, k < 10 → (Nat.digitChar k).isDigit = true := by decide
    have hd : (Nat.digitChar (n % 10)).isDigit = true :=
      hk _ (Nat.mod_lt _ (by omega))
    simp [padNum, List.all_append, padNum_all_digit w, hd]

theorem isTimestampShape_of (l₁ l₂ : List Char)
    (h₁ : l₁.length = 8) (h₂ : l₂.length = 6)
    (d₁ : l₁.all Char.isDigit = true) (d₂ : l₂.all Char.isDigit = true) :
    isTimestampShape ⟨l₁ ++ '_' :: l₂⟩ = true := by
  unfold isTimestampShape
  have hlen : (l₁ ++ '_' :: l₂).length = 15 := by simp [h₁, h₂]
  have htake : (l₁ ++ '_' :: l₂).take 8 = l₁ := by
    rw [← h₁]
    exact List.take_left _ _
  have hget : (l₁ ++ '_' :: l₂)[8]? = some '_' := by
    rw [show (8 : Nat) = l₁.length from h₁.symm,
      List.getElem?_append_right (Nat.le_refl _)]
    simp
  have hdrop : (l₁ ++ '_' :: l₂).drop 9 = l₂ := by
    rw [show l₁ ++ '_' :: l₂ = (l₁ ++ ['_']) ++ l₂ from by simp,
      show (9 : Nat) = (l₁ ++ ['_']).length from by simp [h₁]]
    exact List.drop_left _ _
  simp [hlen, htake, hget, hdrop, d₁, d₂]

/-- C7: for every finite set of employee identifiers, saving the registry
and then loading it returns exactly the same set, regardless of the order
in which the identifiers were supplied, and the persisted file lists the
identifiers sorted ascending under the employees key. -/
theorem c7_registry_roundtrip :
    ∀ l : List String,
      load_known_employees (save_known_employees l.toFinset) = l.toFinset ∧
      List.Sorted sle (save_known_employees l.toFinset).employees ∧
      ∀ l' : List String, l.Perm l' →
        save_known_employees l.toFinset = save_known_employees l'.toFinset := by
  intro l
  refine ⟨?_, ?_, ?_⟩
  · show (finsetSortAsc l.toFinset).toFinset = l.toFinset
    exact finsetSortAsc_toFinset _
  · show List.Sorted sle (finsetSortAsc l.toFinset)
    exact finsetSortAsc_sorted _
  intro l' hp
  have h : l.toFinset = l'.toFinset := by
    ext a
    simp [List.mem_toFinset, hp.mem_iff]
  rw [h]

theorem c7_registry_roundtrip_witness :
    load_known_employees (save_known_employees ((["b", "a"]).toFinset))
        = (["b", "a"]).toFinset ∧
    save_known_employees ((["b", "a"]).toFinset)
        = save_known_employees ((["a", "b"]).toFinset) :=
  ⟨(c7_registry_roundtrip (["b", "a"])).1,
   (c7_registry_roundtrip (["b", "a"])).2.2 (["a", "b"]) (by decide)⟩

/-- C8: report generation names its two artifacts with the stem followed by
Files underscore timestamp dot xlsx and by Data underscore timestamp dot
csv, where the timestamp renders as eight digits, an underscore and six
digits, and the stem is the selected employee's identifier when exactly one
employee is selected and the generic stem Effort otherwise. -/
theorem c8_report_artifact_names :
    ∀ (sel : List String) (t : Timestamp),
      t.year ≤ 9999 → t.month ≤ 12 → t.day ≤ 31 → t.hour ≤ 23 →
      t.minute ≤ 59 → t.second ≤ 59 →
      isTimestampShape (format_timestamp t) = true ∧
      (∀ e, excel_path [e] t = e ++ "Files_" ++ format_timestamp t ++ ".xlsx") ∧
      (∀ e, csv_path [e] t = e ++ "Data_" ++ format_timestamp t ++ ".csv") ∧
      (sel.length ≠ 1 →
        excel_path sel t = "Effort" ++ "Files_" ++ format_timestamp t ++ ".xlsx" ∧
        csv_path sel t = "Effort" ++ "Data_" ++ format_timestamp t ++ ".csv") := by
  intro sel t _ _ _ _ _ _
  have hform : format_timestamp t
      = ⟨((padNum 4 t.year ++ padNum 2 t.month) ++ padNum 2 t.day)
          ++ '_' :: (padNum 2 t.hour ++ (padNum 2 t.minute ++ padNum 2 t.second))⟩ := by
    unfold format_timestamp
    exact congrArg String.mk (by simp [List.append_assoc])
  refine ⟨?_, fun e => rfl, fun e => rfl, ?_⟩
  · rw [hform]
    refine isTimestampShape_of _ _ ?_ ?_ ?_ ?_
    · simp [padNum_length]
    · simp [padNum_length]
    · simp [List.all_append, padNum_all_digit]
    · simp [List.all_append, padNum_all_digit]
  · intro hne
    have hstem : report_name_stem sel = "Effort" := by
      cases sel with
      | nil => rfl
      | cons a tl =>
        cases tl with
        | nil => exact absurd rfl hne
        | cons b tl2 => rfl
    constructor
    · show report_name_stem sel ++ "Files_" ++ format_timestamp t ++ ".xlsx" = _
      rw [hstem]
    · show report_name_stem sel ++ "Data_" ++ format_timestamp t ++ ".csv" = _
      rw [hstem]

theorem c8_report_artifact_names_witness :
    isTimestampShape (format_timestamp ⟨2025, 10, 12, 13, 4, 5⟩) = true ∧
    excel_path (["alice"]) ⟨2025, 10, 12, 13, 4, 5⟩
      = "alice" ++ "Files_" ++ format_timestamp ⟨2025, 10, 12, 13, 4, 5⟩ ++ ".xlsx" ∧
    csv_path (["alice", "bob"]) ⟨2025, 10, 12, 13, 4, 5⟩
      = "Effort" ++ "Data_" ++ format_timestamp ⟨2025, 10, 12, 13, 4, 5⟩ ++ ".csv" :=
  have H1 := c8_report_artifact_names (["alice"]) ⟨2025, 10, 12, 13, 4, 5⟩
    (by decide) (by decide) (by decide) (by decide) (by decide) (by decide)
  have H2 := c8_report_artifact_names (["alice", "bob"]) ⟨2025, 10, 12, 13, 4, 5⟩
    (by decide) (by decide) (by decide) (by decide) (by decide) (by decide)
  ⟨H1.1, H1.2.1 ("alice"), (H2.2.2.2 (by decide)).2⟩

/-- C10: a per-employee summary sheet carrying the percentage column is
only ever built with a non-zero grand total as the divisor: a zero total
yields the no-hours placeholder instead, so the division is never executed
with a zero divisor. -/
theorem c10_percentage_divisor_nonzero :
    ∀ (df : List EffortRow) (tbl : List SummaryRow),
      employee_sheet df = EmpSheet.summary tbl →
      ((studySums df).map Prod.snd).sum ≠ 0 ∧
      ∀ row ∈ tbl, row.pctDen ≠ 0 := by
  intro df tbl h
  simp only [employee_sheet] at h
  split at h
  · simp at h
  · split at h
    · simp at h
    · rename_i htot
      refine ⟨htot, ?_⟩
      intro row hrow
      have htbl := (EmpSheet.summary.injEq _ _).mp h
      rw [← htbl] at hrow
      obtain ⟨p, hp, hpe⟩ := List.mem_map.mp hrow
      rw [← hpe]
      exact htot

theorem c10_percentage_divisor_nonzero_witness :
    ((studySums (demo_load ("alice"))).map Prod.snd).sum ≠ 0 :=
  (c10_percentage_divisor_nonzero (demo_load ("alice"))
    ([⟨"STUDY1", 10, 10, 1000, 10⟩]) (by decide)).1

/-- C9 counterexample: with a generic artifact and an employee-prefixed
artifact of strictly later timestamp both present, the visualization path
loads the generic one, not the artifact with the greatest timestamp. -/
theorem c9_counterexample :
    pick_report_csv csv_files_demo = some ("EffortData_20250101_000000.csv") ∧
    is_flat_artifact ("aliceData_20250102_000000.csv") = true ∧
    strLe (artifact_timestamp ("EffortData_20250101_000000.csv"))
        (artifact_timestamp ("aliceData_20250102_000000.csv")) = true ∧
    artifact_timestamp ("EffortData_20250101_000000.csv")
        ≠ artifact_timestamp ("aliceData_20250102_000000.csv") ∧
    claim_pick csv_files_demo = some ("aliceData_20250102_000000.csv") := by
  decide

/-- C9 as amended: the visualization path loads the lexicographically
greatest file name among the files carrying the generic EffortData stem and
the csv extension; employee-prefixed artifacts are never considered. -/
theorem c9_loads_latest_effort_csv :
    ∀ (files : List String) (f : String),
      pick_report_csv files = some f →
      is_effort_csv f = true ∧ f ∈ files ∧
      ∀ g ∈ files, is_effort_csv g = true → strLe g f = true := by
  intro files f h
  unfold pick_report_csv at h
  have hperm := List.perm_insertionSort sge (files.filter is_effort_csv)
  have hsorted := List.sorted_insertionSort sge (files.filter is_effort_csv)
  cases hl : List.insertionSort sge (files.filter is_effort_csv) with
  | nil =>
    rw [hl] at h
    simp at h
  | cons x xs =>
    rw [hl] at h hperm hsorted
    simp only [List.head?_cons, Option.some_inj] at h
    subst h
    have hxmem : x ∈ files.filter is_effort_csv :=
      hperm.mem_iff.mp (List.mem_cons_self _ _)
    rw [List.mem_filter] at hxmem
    refine ⟨hxmem.2, hxmem.1, ?_⟩
    intro g hg hge
    have hgmem : g ∈ x :: xs := hperm.mem_iff.mpr (List.mem_filter.mpr ⟨hg, hge⟩)
    rcases List.mem_cons.mp hgmem with hgf | hgxs
    · rw [hgf]
      exact strLe_refl x
    · exact (List.sorted_cons.mp hsorted).1 g hgxs

theorem c9_loads_latest_effort_csv_witness :
    is_effort_csv ("EffortData_20250101_000000.csv") = true ∧
    "EffortData_20250101_000000.csv" ∈ csv_files_demo :=
  have H := c9_loads_latest_effort_csv csv_files_demo
    ("EffortData_20250101_000000.csv") (by decide)
  ⟨H.1, H.2.1⟩

theorem nonEmptyTagged_eq_none {f : String → List EffortRow} {e : String}
    (h : nonEmptyTagged f e = none) : f e = [] := by
  unfold nonEmptyTagged at h
  by_cases hb : (f e).isEmpty = true
  · exact List.isEmpty_iff.mp hb
  · rw [if_neg hb] at h
    cases h

/-- C5 counterexample: with an empty registry the aggregator returns the
wholly empty default frame, whose column list is empty rather than the
defined column set. -/
theorem c5_counterexample :
    load_all_data ∅ ((["alice"]).toFinset) (fun _ => []) = ⟨[], []⟩ ∧
    (load_all_data ∅ ((["alice"]).toFinset) (fun _ => [])).columns
      ≠ effort_columns := by
  decide

/-- C5 as amended: the aggregator concatenates per-employee rows in
ascending identifier order over the intersection of the registry and the
identifiers derivable from present files; an empty registry or all-empty
loads yields the wholly empty frame with no columns at all, and any
non-empty result carries the defined column set. -/
theorem c5_aggregation :
    ∀ (known current : Finset String) (loadEmp : String → List EffortRow),
      (load_all_data known current loadEmp).rows
          = (get_employee_files known current).flatMap
              (fun e => tagEmployee e (loadEmp e)) ∧
      List.Sorted sle (get_employee_files known current) ∧
      (∀ e, e ∈ get_employee_files known current ↔ e ∈ known ∩ current) ∧
      ((∀ e ∈ get_employee_files known current, loadEmp e = []) →
        load_all_data known current loadEmp = ⟨[], []⟩) ∧
      ((load_all_data known current loadEmp).rows ≠ [] →
        (load_all_data known current loadEmp).columns = effort_columns) := by
  intro known current loadEmp
  refine ⟨?_, finsetSortAsc_sorted _, fun e => mem_finsetSortAsc _, ?_, ?_⟩
  · simp only [load_all_data]
    by_cases h1 : (get_employee_files known current).isEmpty = true
    · have he : get_employee_files known current = [] := List.isEmpty_iff.mp h1
      rw [if_pos h1, he]
      rfl
    · rw [if_neg h1]
      by_cases h2 : ((get_employee_files known current).filterMap
          (nonEmptyTagged loadEmp)).isEmpty = true
      · have h2n := List.isEmpty_iff.mp h2
        have hall := List.filterMap_eq_nil_iff.mp h2n
        rw [if_pos h2]
        have hmap : (get_employee_files known current).flatMap
            (fun e => tagEmployee e (loadEmp e)) = [] := by
          rw [List.flatMap_eq_nil_iff]
          intro e he
          rw [nonEmptyTagged_eq_none (hall e he)]
          rfl
        rw [hmap]
      · rw [if_neg h2]
        exact flatten_filterMap_tag _ _
  · intro hall
    simp only [load_all_data]
    by_cases h1 : (get_employee_files known current).isEmpty = true
    · rw [if_pos h1]
    · rw [if_neg h1]
      have h2 : ((get_employee_files known current).filterMap
          (nonEmptyTagged loadEmp)).isEmpty = true := by
        rw [List.isEmpty_iff, List.filterMap_eq_nil_iff]
        intro e he
        unfold nonEmptyTagged
        rw [hall e he]
        rfl
      rw [if_pos h2]
  · intro hne
    simp only [load_all_data] at hne ⊢
    by_cases h1 : (get_employee_files known current).isEmpty = true
    · rw [if_pos h1] at hne
      exact absurd rfl hne
    · rw [if_neg h1] at hne ⊢
      by_cases h2 : ((get_employee_files known current).filterMap
          (nonEmptyTagged loadEmp)).isEmpty = true
      · rw [if_pos h2] at hne
        exact absurd rfl hne
      · rw [if_neg h2]

theorem c5_aggregation_witness :
    (load_all_data ((["alice"]).toFinset) ((["alice"]).toFinset)
        demo_load).columns = effort_columns :=
  (c5_aggregation ((["alice"]).toFinset) ((["alice"]).toFinset)
    demo_load).2.2.2.2 (by decide)

/-- C6: with more than one selected employee and at least one non-empty
load, report generation emits the Overall Summary pivot; on the two
employee example (alice: 10 on STUDY1; bob: 20 on STUDY1 and 5 on STUDY2)
the pivot is STUDY1 with alice 10, bob 20, Grand Total 30; STUDY2 with
alice 0 (zero-filled), bob 5, Grand Total 5; and Total per Employee with
alice 10, bob 25 (and 35 in the Grand Total column). -/
theorem c6_overall_summary_pivot :
    (∀ (selected : List String) (loadEmp : String → List EffortRow),
        1 < selected.length → report_details selected loadEmp ≠ [] →
        report_has_overall selected loadEmp = true) ∧
    report_has_overall (["alice", "bob"]) demo_load = true ∧
    overall_summary (report_details (["alice", "bob"]) demo_load) =
      ⟨["alice", "bob"],
       [(("STUDY1"), [10, 20], 30), (("STUDY2"), [0, 5], 5)],
       ([10, 25], 35)⟩ := by
  refine ⟨?_, by decide, by decide⟩
  intro sel loadEmp h1 h2
  simp [report_has_overall, h1, List.isEmpty_iff, h2]

theorem c6_overall_summary_pivot_witness :
    report_has_overall (["alice", "bob"]) demo_load = true :=
  c6_overall_summary_pivot.1 (["alice", "bob"]) demo_load (by decide) (by decide)

/-- C1 counterexample: on the specification's own example grid the
extractor does not produce hours 7 and 0; the header cells make every
column object-typed, so no column counts as numeric and both sums are 0. -/
theorem c1_counterexample :
    extract_study_hours_from_sheet exampleGrid ("S")
      ≠ [⟨"STUDY1", 7, "S"⟩, ⟨"STUDY2", 0, "S"⟩] := by
  decide

/-- C1 as amended: each emitted row's hours is the sum over exactly the
columns whose every cell in the whole sheet (header rows included) is
numeric or missing, with the other columns and missing cells contributing
0; on the example grid no column qualifies, so the extraction yields
STUDY1 with 0 and STUDY2 with 0, the junk row dropped. -/
theorem c1_hours_from_numeric_dtype_columns :
    (∀ (g : List (List Cell)) (s : String) (e : EffortRow),
        e ∈ extract_study_hours_from_sheet g s →
        ∃ r ∈ g.drop (data_start g),
          e.hours = ((List.range (ncols g)).map fun j =>
            if numericCol g j then cellAsNum (r.getD j Cell.empty) else 0).sum) ∧
    extract_study_hours_from_sheet exampleGrid ("S")
      = [⟨"STUDY1", 0, "S"⟩, ⟨"STUDY2", 0, "S"⟩] := by
  refine ⟨?_, by decide⟩
  intro g s e h
  obtain ⟨c, hc, r, hr, hpred, he⟩ := mem_extract h
  refine ⟨r, hr, ?_⟩
  rw [he]
  show rowHours (numeric_cols g) r = _
  unfold rowHours numeric_cols
  exact sum_map_filter_eq _ _ _

theorem c1_hours_from_numeric_dtype_columns_witness :
    ∃ r ∈ exampleGrid.drop (data_start exampleGrid),
      (⟨"STUDY1", 0, "S"⟩ : EffortRow).hours
        = ((List.range (ncols exampleGrid)).map fun j =>
            if numericCol exampleGrid j then cellAsNum (r.getD j Cell.empty)
            else 0).sum :=
  c1_hours_from_numeric_dtype_columns.1 exampleGrid ("S")
    (⟨"STUDY1", 0, "S"⟩) (by decide)

/-- C2 counterexample: a grid with a negative numeric cell produces an
emitted row whose hours is negative. -/
theorem c2_counterexample :
    extract_study_hours_from_sheet negGrid ("S") = [⟨"STUDY1", -5, "S"⟩] ∧
    ¬ (0 ≤ (⟨"STUDY1", -5, "S"⟩ : EffortRow).hours) := by
  decide

/-- C2 as amended: every emitted row's study id fully matches STUDY then
digits exactly as written, hence also case-insensitively; and the hours of
every emitted row is non-negative provided every numeric cell of the grid
is non-negative (with negative numeric cells the hours can be negative, as
the counterexample shows). -/
theorem c2_row_invariant :
    ∀ (g : List (List Cell)) (s : String) (e : EffortRow),
      e ∈ extract_study_hours_from_sheet g s →
      isStudyToken e.studyId = true ∧ matchesStudyLower e.studyId = true ∧
      ((∀ r ∈ g, ∀ c ∈ r, ∀ n : Int, c = Cell.num n → 0 ≤ n) → 0 ≤ e.hours) := by
  intro g s e h
  obtain ⟨c, hc, r, hr, hpred, he⟩ := mem_extract h
  have hid : isStudyToken e.studyId = true := by
    rw [he]
    exact hpred
  refine ⟨hid, studyToken_matchesLower hid, ?_⟩
  intro hnn
  rw [he]
  show 0 ≤ rowHours (numeric_cols g) r
  unfold rowHours
  apply List.sum_nonneg
  intro x hx
  obtain ⟨j, hj, hxe⟩ := List.mem_map.mp hx
  rw [← hxe]
  have hrg : r ∈ g := List.drop_subset _ _ hr
  by_cases hjl : j < r.length
  · have hmem : r.getD j Cell.empty ∈ r := by
      rw [List.getD_eq_getElem?_getD, List.getElem?_eq_getElem hjl]
      exact List.getElem_mem hjl
    cases hcell : r.getD j Cell.empty with
    | num n => exact hnn r hrg _ hmem n hcell
    | str t => exact le_refl 0
    | empty => exact le_refl 0
  · have hout : r.getD j Cell.empty = Cell.empty := by
      rw [List.getD_eq_getElem?_getD, List.getElem?_eq_none (by omega)]
      rfl
    rw [hout]
    exact le_refl 0

theorem c2_row_invariant_witness :
    isStudyToken (("STUDY1") : String) = true ∧
    matchesStudyLower (("STUDY1") : String) = true :=
  have H := c2_row_invariant hdrGrid ("S") (⟨"STUDY1", 0, "S"⟩) (by decide)
  ⟨H.1, H.2.1⟩

/-- C3 counterexample: on a grid whose only study-like cell is lowercase
and whitespace-padded, the claim's trimmed case-insensitive reading selects
column 0, but the extractor selects no column at all and returns the empty
sequence. -/
theorem c3_counterexample :
    studyColClaim (paddedGrid.drop (data_start paddedGrid)) (ncols paddedGrid)
        = some 0 ∧
    studyCol (paddedGrid.drop (data_start paddedGrid)) (ncols paddedGrid)
        = none ∧
    extract_study_hours_from_sheet paddedGrid ("S") = [] := by
  decide

/-- C3 as amended: the extractor selects as the study-id column the first
column, scanning left to right, holding at least one cell whose
stringified value fully matches STUDY then digits case-sensitively and
without trimming; when no column qualifies it returns the empty
sequence. -/
theorem c3_study_column_selection :
    (∀ (d : List (List Cell)) (w j : Nat),
        studyCol d w = some j →
        colHasStudyExact d j = true ∧ j < w ∧
        ∀ i, i < j → colHasStudyExact d i = false) ∧
    (∀ (g : List (List Cell)) (s : String),
        studyCol (g.drop (data_start g)) (ncols g) = none →
        extract_study_hours_from_sheet g s = []) := by
  constructor
  · intro d w j h
    have hs := range_find?_spec h
    exact ⟨hs.1, hs.2.1, hs.2.2⟩
  · intro g s h
    simp only [extract_study_hours_from_sheet, h]
    split <;> rfl

theorem c3_study_column_selection_witness :
    colHasStudyExact ([[Cell.str ("STUDY1")]]) 0 = true ∧ 0 < 1 :=
  have H := c3_study_column_selection.1 ([[Cell.str ("STUDY1")]]) 1 0 (by decide)
  ⟨H.1, H.2.1⟩

/-- C4 counterexample: in a grid whose first row fully matches the study
pattern and whose second row holds the study id header token, the data
region starts at row 0, not at the header row's index plus one, and the
row above the header row appears in the output. -/
theorem c4_counterexample :
    (preemptGrid.getD 1 []).any containsStudyId = true ∧
    data_start preemptGrid = 0 ∧
    data_start preemptGrid ≠ 1 + 1 ∧
    (⟨"STUDY5", 0, "S"⟩ : EffortRow)
      ∈ extract_study_hours_from_sheet preemptGrid ("S") := by
  decide

/-- C4 as amended: when row i holds the study id header token and no
earlier row holds either the header token or a cell fully matching the
lowercased study pattern, the data region starts at row i plus one and
every emitted row is derived from a row strictly below row i. -/
theorem c4_header_row_starts_data :
    ∀ (g : List (List Cell)) (s : String) (i : Nat),
      i < g.length →
      (g.getD i []).any containsStudyId = true →
      (∀ k, k < i → (g.getD k []).any containsStudyId = false ∧
        (g.getD k []).any (fun c => matchesStudyLower (cellStr c)) = false) →
      data_start g = i + 1 ∧
      ∀ e ∈ extract_study_hours_from_sheet g s,
        ∃ r ∈ g.drop (i + 1), ∃ j, j < ncols g ∧
          e.studyId = cellStr (r.getD j Cell.empty) ∧
          isStudyToken e.studyId = true := by
  intro g s i hi hhit hprior
  have hds : data_start g = i + 1 := by
    unfold data_start
    rw [headerScan_eq g i hi hhit hprior]
    rfl
  refine ⟨hds, ?_⟩
  intro e he
  obtain ⟨c, hc, r, hr, hpred, hee⟩ := mem_extract he
  rw [hds] at hr hc
  have hcw := (range_find?_spec hc).2.1
  refine ⟨r, hr, c, hcw, ?_, ?_⟩
  · rw [hee]
  · rw [hee]
    exact hpred

theorem c4_header_row_starts_data_witness :
    data_start hdrGrid = 0 + 1 :=
  (c4_header_row_starts_data hdrGrid ("S") 0 (by decide) (by decide)
    (by decide)).1
